import Mathlib

/-!
Verification of the HDRI sun-extraction and synchronization subsystem of the
3d-model-uploader viewer.

The development shallowly embeds the relevant parts of the viewer script:

* the brightest-pixel scan of `analyzeHDRIBrightestPoint` (pixel buffers are
  modelled as functions from row/column indices to exact rational RGB samples;
  the scan is the same row-major double loop with running maximum, initial
  maximum 0 and initial UV (0.5, 0.5));
* `equirectUVToDirection` and the vertical-axis rotation used by
  `updateSunLightPosition` (over the real numbers, with exact trigonometry);
* the sun-related state of the viewer object (`sunDirection`, `hdriRotation`,
  `sunIntensity`, `sunEnabled`, the directional light) together with
  `updateSunLightPosition`, the calibration table `hdriSunPositions`, the
  sun-direction part of the `loadHDRI` load callback, and the UI event
  listeners that mutate this state;
* the 300 ms debounce of the `hdri-rotation` input listener, modelled as an
  explicit timer simulation over rational timestamps.
-/

namespace HDRISun

/-! ## Brightest-pixel scan (analyzeHDRIBrightestPoint, scan part) -/

/-- Linear RGB pixel sample.  The script reads RGBA floats from the render
target; the alpha channel is never used by the scan, so a pixel is modelled
as its RGB triple, with exact rationals standing for the float values. -/
abbrev Pixel := ℚ × ℚ × ℚ

/-- Rec.709 luminance, exactly as computed in the scan loop:
`0.2126 * r + 0.7152 * g + 0.0722 * b`. -/
def luminance (p : Pixel) : ℚ :=
  0.2126 * p.1 + 0.7152 * p.2.1 + 0.0722 * p.2.2

/-- One iteration of the scan loop body at pixel coordinates `(y, x)`:
if `luminance > maxLuminance` then the running maximum and the recorded UV
`(x / sampleWidth, 1 - y / sampleHeight)` are replaced, otherwise the
accumulator `(maxLuminance, brightestU, brightestV)` is kept. -/
def scanStep (W H : ℕ) (buf : ℕ → ℕ → Pixel) (acc : ℚ × ℚ × ℚ) (p : ℕ × ℕ) :
    ℚ × ℚ × ℚ :=
  let L := luminance (buf p.1 p.2)
  if acc.1 < L then (L, (p.2 : ℚ) / (W : ℚ), 1 - (p.1 : ℚ) / (H : ℚ)) else acc

/-- Initial accumulator of the scan: `maxLuminance = 0`, `brightestU = 0.5`,
`brightestV = 0.5`. -/
def brightestInit : ℚ × ℚ × ℚ := (0, 0.5, 0.5)

/-- The full scan of `analyzeHDRIBrightestPoint`: the row-major double loop
`for y in [0, H) { for x in [0, W) { ... } }` over the pixel buffer. -/
def brightestScan (W H : ℕ) (buf : ℕ → ℕ → Pixel) : ℚ × ℚ × ℚ :=
  (List.range H).foldl
    (fun acc y => (List.range W).foldl (fun acc x => scanStep W H buf acc (y, x)) acc)
    brightestInit

/-- The UV coordinates `(brightestU, brightestV)` produced by the scan. -/
def brightestUV (W H : ℕ) (buf : ℕ → ℕ → Pixel) : ℚ × ℚ :=
  ((brightestScan W H buf).2.1, (brightestScan W H buf).2.2)

/-- Row-major enumeration of all pixel coordinates `(y, x)`, `y < H`, `x < W`:
the traversal order of the scan's nested loops. -/
def rowMajor (W H : ℕ) : List (ℕ × ℕ) :=
  (List.range H).flatMap (fun y => (List.range W).map (fun x => (y, x)))

/-! ## Equirectangular UV to direction, rotation, vector helpers -/

noncomputable section

/-- Euclidean length of a 3-vector (`THREE.Vector3.length`). -/
def norm3 (v : ℝ × ℝ × ℝ) : ℝ := Real.sqrt (v.1 ^ 2 + v.2.1 ^ 2 + v.2.2 ^ 2)

/-- Normalization `THREE.Vector3.normalize`: divide by the length, or by 1 when the length
is zero (`divideScalar(length() || 1)`). -/
def normalize3 (v : ℝ × ℝ × ℝ) : ℝ × ℝ × ℝ :=
  let l := if norm3 v = 0 then 1 else norm3 v
  (v.1 / l, v.2.1 / l, v.2.2 / l)

/-- Scalar multiple of a 3-vector (`THREE.Vector3.multiplyScalar`). -/
def scale3 (c : ℝ) (v : ℝ × ℝ × ℝ) : ℝ × ℝ × ℝ := (c * v.1, c * v.2.1, c * v.2.2)

/-- Conversion `equirectUVToDirection(u, v)` from the script:
`phi = (u - 0.5) * π * 2`, `theta = (v - 0.5) * π`,
direction `(cos θ sin φ, sin θ, cos θ cos φ)`, normalized. -/
def equirectUVToDirection (u v : ℝ) : ℝ × ℝ × ℝ :=
  let phi := (u - 0.5) * Real.pi * 2
  let theta := (v - 0.5) * Real.pi
  normalize3 (Real.cos theta * Real.sin phi, Real.sin theta,
    Real.cos theta * Real.cos phi)

/-- The spec's formula for UV-to-direction conversion, written from the spec
text (§4.2): the normalization of
`(cos(theta)*sin(phi), sin(theta), cos(theta)*cos(phi))` with
`phi = (u - 0.5)·2π` and `theta = (v - 0.5)·π`.  Kept separate from
`equirectUVToDirection` so the refinement claim compares the two. -/
def uvToDirectionSpec (u v : ℝ) : ℝ × ℝ × ℝ :=
  normalize3 (Real.cos ((v - 0.5) * Real.pi) * Real.sin ((u - 0.5) * 2 * Real.pi),
    Real.sin ((v - 0.5) * Real.pi),
    Real.cos ((v - 0.5) * Real.pi) * Real.cos ((u - 0.5) * 2 * Real.pi))

/-- Rotation about the vertical axis: `THREE.Vector3.applyAxisAngle` with axis
`(0, 1, 0)` and the given angle in radians, i.e. the standard right-handed
rotation matrix about +Y. -/
def rotateAroundVerticalAxis (v : ℝ × ℝ × ℝ) (angle : ℝ) : ℝ × ℝ × ℝ :=
  (v.1 * Real.cos angle + v.2.2 * Real.sin angle,
   v.2.1,
   -v.1 * Real.sin angle + v.2.2 * Real.cos angle)

/-- The fast-path rotation as driven by the rotation slider: the angle is given
in degrees and converted to radians (`angle * π / 180`) before
`applyAxisAngle`, as in `updateSunLightPosition`. -/
def rotateAroundVerticalAxisDeg (v : ℝ × ℝ × ℝ) (degrees : ℝ) : ℝ × ℝ × ℝ :=
  rotateAroundVerticalAxis v (degrees * Real.pi / 180)

/-- Extraction `analyzeHDRIBrightestPoint`: scan the buffer for the brightest pixel and
convert its UV to a direction via `equirectUVToDirection`. -/
def analyzeHDRIBrightestPoint (W H : ℕ) (buf : ℕ → ℕ → Pixel) : ℝ × ℝ × ℝ :=
  equirectUVToDirection ((brightestUV W H buf).1 : ℝ) ((brightestUV W H buf).2 : ℝ)

end

/-! ## Calibration table (hdriSunPositions) -/

/-- One entry of the calibration table: a pre-measured UV and direction. -/
structure CalibrationEntry where
  uv : ℚ × ℚ
  direction : ℚ × ℚ × ℚ
deriving DecidableEq

/-- The manually calibrated sun positions of the script, keyed by preset name
(`this.hdriSunPositions`), with the decimal literals read as exact rationals. -/
def hdriSunPositions : String → Option CalibrationEntry
  | "studio" => some ⟨(0.5379793510324484, 0.4930862831858407),
      (0.23631718059217147, -0.021718374207907128, 0.9714332207510367)⟩
  | "sunset" => some ⟨(0.5859144542772862, 0.47022492625368734),
      (0.5117315358156711, -0.09340479924989314, 0.8540529133073791)⟩
  | "outdoor" => some ⟨(0.5918141592920354, 0.24234882005899705),
      (0.37628660383620194, -0.7238975294890294, 0.5782566545860904)⟩
  | "warehouse" => some ⟨(0.5527286135693216, 0.4746497050147493),
      (0.3242450616340675, -0.07955613972374084, 0.9426218545303182)⟩
  | "night" => some ⟨(0.5542035398230089, 0.2718473451327434),
      (0.251833791678793, -0.6569474036647028, 0.7106334147694495)⟩
  | "autumn" => some ⟨(0.7230825958702065, 0.09854351032448377),
      (0.30031513481164146, -0.9524605234566362, 0.05128129346824372)⟩
  | "urban" => some ⟨(0.5114306784660767, 0.3662426253687316),
      (0.06551648024816516, -0.40795327511423385, 0.9106490631079911)⟩
  | _ => none

/-- Cast a rational direction triple to the reals. -/
noncomputable def ratDir (d : ℚ × ℚ × ℚ) : ℝ × ℝ × ℝ :=
  ((d.1 : ℝ), (d.2.1 : ℝ), (d.2.2 : ℝ))

/-- Sun-direction part of the `loadHDRI` texture-loaded callback: when a
calibration entry exists for the preset, the stored direction is normalized
and used directly and the sampler is not invoked; otherwise
`analyzeHDRIBrightestPoint` runs on the sampled buffer.  The boolean records
whether the sampler/extractor was invoked. -/
noncomputable def loadHDRISunDirection (presetName : String) (W H : ℕ)
    (buf : ℕ → ℕ → Pixel) : (ℝ × ℝ × ℝ) × Bool :=
  match hdriSunPositions presetName with
  | some calibratedData => (normalize3 (ratDir calibratedData.direction), false)
  | none => (analyzeHDRIBrightestPoint W H buf, true)

/-! ## Viewer sun state and updateSunLightPosition -/

/-- The directional sun light, with the fields `updateSunLightPosition`
writes: world position, target position, intensity, visibility. -/
structure SunLight where
  position : ℝ × ℝ × ℝ
  targetPosition : ℝ × ℝ × ℝ
  intensity : ℝ
  visible : Bool

/-- The sun-related state of the viewer object. -/
structure ViewerState where
  sunLight : Option SunLight
  sunDirection : ℝ × ℝ × ℝ
  hdriRotation : ℝ
  sunIntensity : ℝ
  sunEnabled : Bool

/-- Constructor state: no light yet, `sunDirection = (0, 1, 0)` (default
top-down), `hdriRotation = 0`, `sunIntensity = 2.0`, `sunEnabled = true`. -/
noncomputable def initialViewerState : ViewerState :=
  { sunLight := none
    sunDirection := (0, 1, 0)
    hdriRotation := 0
    sunIntensity := 2
    sunEnabled := true }

/-- Sun part of `setupLighting`: create the directional light with placeholder
position `(5, 10, 5)`, target at the origin and the current intensity. -/
noncomputable def setupSunLight (s : ViewerState) : ViewerState :=
  { s with sunLight := some (SunLight.mk (5, 10, 5) (0, 0, 0) s.sunIntensity true) }

/-- Model of `updateSunLightPosition()`:
`if (!this.sunLight || !this.sunEnabled) return;` then clone `sunDirection`,
rotate the clone about `(0,1,0)` by `hdriRotation` in radians, position the
light at the rotated direction times `distance = 20`, point the target at the
origin, set the intensity and set visibility from the enabled flag.  The JS
mutation of the cloned vector is embedded as pure value computation; the
stored `sunDirection` is untouched because only the clone is mutated. -/
noncomputable def updateSunLightPosition (s : ViewerState) : ViewerState :=
  match s.sunLight with
  | none => s
  | some light =>
    if !s.sunEnabled then s
    else
      let rotationRadians := s.hdriRotation * Real.pi / 180
      let rotatedDirection := rotateAroundVerticalAxis s.sunDirection rotationRadians
      let distance : ℝ := 20
      let newLight : SunLight :=
        { light with
          position := scale3 distance rotatedDirection
          targetPosition := (0, 0, 0)
          intensity := s.sunIntensity
          visible := s.sunEnabled }
      { s with sunLight := some newLight }

/-- The `sun-enabled` change listener: store the checkbox state, then call
`updateSunLightPosition`. -/
noncomputable def sunEnabledChange (s : ViewerState) (checked : Bool) : ViewerState :=
  updateSunLightPosition { s with sunEnabled := checked }

/-- The `sun-intensity` input listener: store the slider value, then call
`updateSunLightPosition`. -/
noncomputable def sunIntensityInput (s : ViewerState) (value : ℝ) : ViewerState :=
  updateSunLightPosition { s with sunIntensity := value }

/-- Sun-relevant effect of the `hdri-rotation` input listener's immediate
(fast) path: store the new rotation, then `updateHDRISettings(false)` ends by
calling `updateSunLightPosition`. -/
noncomputable def hdriRotationFastUpdate (s : ViewerState) (value : ℝ) : ViewerState :=
  updateSunLightPosition { s with hdriRotation := value }

/-- Sun-relevant effect of the `loadHDRI` texture-loaded callback: store the
calibrated or extracted direction, then (after regenerating the environment)
call `updateSunLightPosition`. -/
noncomputable def loadHDRIApply (s : ViewerState) (presetName : String) (W H : ℕ)
    (buf : ℕ → ℕ → Pixel) : ViewerState :=
  updateSunLightPosition
    { s with sunDirection := (loadHDRISunDirection presetName W H buf).1 }

/-- States of the viewer reachable from the constructor through the sun-related
operations of the script: light setup, HDRI loads and the three UI listeners,
plus bare `updateSunLightPosition` calls. -/
inductive ReachableSunState : ViewerState → Prop
  | init : ReachableSunState initialViewerState
  | setup (s : ViewerState) : ReachableSunState s → ReachableSunState (setupSunLight s)
  | load (s : ViewerState) (presetName : String) (W H : ℕ) (buf : ℕ → ℕ → Pixel) :
      ReachableSunState s → ReachableSunState (loadHDRIApply s presetName W H buf)
  | enabledChange (s : ViewerState) (checked : Bool) :
      ReachableSunState s → ReachableSunState (sunEnabledChange s checked)
  | intensityInput (s : ViewerState) (value : ℝ) :
      ReachableSunState s → ReachableSunState (sunIntensityInput s value)
  | rotationInput (s : ViewerState) (value : ℝ) :
      ReachableSunState s → ReachableSunState (hdriRotationFastUpdate s value)
  | update (s : ViewerState) :
      ReachableSunState s → ReachableSunState (updateSunLightPosition s)

/-! ## Debounced rotation regeneration (hdri-rotation listener) -/

/-- A record of one `updateHDRISettings` invocation: when it ran, the value of
`this.hdriRotation` it read, and its `forceRegenerate` argument. -/
structure HDRISettingsCall where
  time : ℚ
  rotation : ℚ
  forceRegenerate : Bool
deriving DecidableEq

/-- State of the debounce simulation: the stored rotation, the pending
`hdriRotationTimer` (its fire time, if armed) and the log of
`updateHDRISettings` calls so far. -/
structure DebounceState where
  hdriRotation : ℚ
  timer : Option ℚ
  calls : List HDRISettingsCall
deriving DecidableEq

/-- Fire the pending timer if its fire time has been reached by `now`: the
timer callback runs `updateHDRISettings(true)`, reading the rotation stored at
fire time. -/
def deliverDueTimer (s : DebounceState) (now : ℚ) : DebounceState :=
  match s.timer with
  | some fireTime =>
    if fireTime ≤ now then
      { s with timer := none
               calls := s.calls ++ [HDRISettingsCall.mk fireTime s.hdriRotation true] }
    else s
  | none => s

/-- The `hdri-rotation` input listener at time `t` with slider value `value`:
any timer due before the event fires first (browser event ordering); then the
listener stores the value, calls `updateHDRISettings(false)` immediately,
cancels any pending timer (`clearTimeout`) and arms a new 300 ms one
(`setTimeout(..., 300)`). -/
def hdriRotationInputEvent (s : DebounceState) (t value : ℚ) : DebounceState :=
  let s := deliverDueTimer s t
  let s := { s with hdriRotation := value }
  let s := { s with calls := s.calls ++ [HDRISettingsCall.mk t s.hdriRotation false] }
  let s := { s with timer := none }
  { s with timer := some (t + 300) }

/-- Run a sequence of timed rotation-input events. -/
def runRotationEvents (s : DebounceState) (events : List (ℚ × ℚ)) : DebounceState :=
  events.foldl (fun s e => hdriRotationInputEvent s e.1 e.2) s

/-- After the burst: let the pending timer (if any) fire. -/
def flushPendingTimer (s : DebounceState) : DebounceState :=
  match s.timer with
  | some fireTime =>
    { s with timer := none
             calls := s.calls ++ [HDRISettingsCall.mk fireTime s.hdriRotation true] }
  | none => s

/-- Quiescent initial state of the debounce simulation. -/
def debounceInit (rotation : ℚ) : DebounceState :=
  { hdriRotation := rotation, timer := none, calls := [] }

/-- The slow-path regenerations in a call log: the `updateHDRISettings` calls
with `forceRegenerate = true`. -/
def slowPathCalls (calls : List HDRISettingsCall) : List HDRISettingsCall :=
  calls.filter (fun c => c.forceRegenerate)

/-! ## Lemmas about the brightest-pixel scan -/

lemma foldl_flatMap_range {α : Type} (f : α → ℕ × ℕ → α) (W : ℕ) (ys : List ℕ)
    (a : α) :
    (ys.flatMap (fun y => (List.range W).map (fun x => (y, x)))).foldl f a
      = ys.foldl (fun a y => (List.range W).foldl (fun a x => f a (y, x)) a) a := by
  induction ys generalizing a with
  | nil => rfl
  | cons y ys ih => simp [List.foldl_append, List.foldl_map, ih]

lemma brightestScan_eq_foldl (W H : ℕ) (buf : ℕ → ℕ → Pixel) :
    brightestScan W H buf = (rowMajor W H).foldl (scanStep W H buf) brightestInit := by
  rw [brightestScan, rowMajor, foldl_flatMap_range]

lemma mem_rowMajor {W H : ℕ} {p : ℕ × ℕ} :
    p ∈ rowMajor W H ↔ p.1 < H ∧ p.2 < W := by
  cases p with
  | mk y x =>
    simp only [rowMajor, List.mem_flatMap, List.mem_map, List.mem_range]
    constructor
    · rintro ⟨y', hy', x', hx', h⟩
      cases h
      exact ⟨hy', hx'⟩
    · rintro ⟨hy, hx⟩
      exact ⟨y, hy, x, hx, rfl⟩

lemma scanStep_of_le {W H : ℕ} {buf : ℕ → ℕ → Pixel} {acc : ℚ × ℚ × ℚ}
    {p : ℕ × ℕ} (h : luminance (buf p.1 p.2) ≤ acc.1) :
    scanStep W H buf acc p = acc := by
  unfold scanStep
  simp only []
  rw [if_neg (not_lt.mpr h)]

lemma scanStep_of_lt {W H : ℕ} {buf : ℕ → ℕ → Pixel} {acc : ℚ × ℚ × ℚ}
    {p : ℕ × ℕ} (h : acc.1 < luminance (buf p.1 p.2)) :
    scanStep W H buf acc p
      = (luminance (buf p.1 p.2), (p.2 : ℚ) / (W : ℚ), 1 - (p.1 : ℚ) / (H : ℚ)) := by
  unfold scanStep
  simp only []
  rw [if_pos h]

lemma scanFold_const_of_le (W H : ℕ) (buf : ℕ → ℕ → Pixel)
    (ps : List (ℕ × ℕ)) (acc : ℚ × ℚ × ℚ)
    (h : ∀ p ∈ ps, luminance (buf p.1 p.2) ≤ acc.1) :
    ps.foldl (scanStep W H buf) acc = acc := by
  induction ps with
  | nil => rfl
  | cons p ps ih =>
    rw [List.foldl_cons, scanStep_of_le (h p (List.mem_cons_self p ps))]
    exact ih (fun q hq => h q (List.mem_cons_of_mem p hq))

lemma scanFold_unique_max (W H r c : ℕ) (buf : ℕ → ℕ → Pixel)
    (ps : List (ℕ × ℕ)) (acc : ℚ × ℚ × ℚ)
    (hmem : (r, c) ∈ ps)
    (hdom : ∀ p ∈ ps, p ≠ (r, c) → luminance (buf p.1 p.2) < luminance (buf r c))
    (hacc : acc.1 < luminance (buf r c)) :
    ps.foldl (scanStep W H buf) acc
      = (luminance (buf r c), (c : ℚ) / (W : ℚ), 1 - (r : ℚ) / (H : ℚ)) := by
  induction ps generalizing acc with
  | nil => cases hmem
  | cons p ps ih =>
    by_cases hp : p = (r, c)
    · subst hp
      rw [List.foldl_cons, scanStep_of_lt hacc]
      exact scanFold_const_of_le W H buf ps _ (fun q hq => by
        by_cases hq' : q = (r, c)
        · subst hq'
          simp
        · exact le_of_lt (hdom q (List.mem_cons_of_mem _ hq) hq'))
    · have hmem' : (r, c) ∈ ps := by
        rcases List.mem_cons.mp hmem with h | h
        · exact absurd h.symm hp
        · exact h
      have hdom' : ∀ q ∈ ps, q ≠ (r, c) →
          luminance (buf q.1 q.2) < luminance (buf r c) :=
        fun q hq => hdom q (List.mem_cons_of_mem p hq)
      have hplt : luminance (buf p.1 p.2) < luminance (buf r c) := by
        have := hdom p (List.mem_cons_self p ps) hp
        simpa using this
      rw [List.foldl_cons]
      rcases lt_or_le acc.1 (luminance (buf p.1 p.2)) with hlt | hle
      · rw [scanStep_of_lt hlt]
        exact ih _ hmem' hdom' (by simpa using hplt)
      · rw [scanStep_of_le hle]
        exact ih _ hmem' hdom' hacc

/-- C1 (amended): for every pixel buffer (width `W`, height `H`) containing a
single pixel of **strictly positive** Rec.709 luminance that is strictly
greater than that of every other pixel, at row `r` and column `c`, the
brightest-point scan in `analyzeHDRIBrightestPoint` returns UV
`(c/W, 1 - r/H)` exactly.  (Positivity is needed because the scan's running
maximum starts at 0 and the recorded UV starts at the `(0.5, 0.5)` default.) -/
theorem C1_unique_brightest_pixel_uv (W H r c : ℕ) (buf : ℕ → ℕ → Pixel)
    (hr : r < H) (hc : c < W) (hpos : 0 < luminance (buf r c))
    (hdom : ∀ y, y < H → ∀ x, x < W → (y, x) ≠ (r, c) →
      luminance (buf y x) < luminance (buf r c)) :
    brightestUV W H buf = ((c : ℚ) / (W : ℚ), 1 - (r : ℚ) / (H : ℚ)) := by
  have h := scanFold_unique_max W H r c buf (rowMajor W H) brightestInit
    (mem_rowMajor.mpr ⟨hr, hc⟩)
    (fun p hp hne => by
      obtain ⟨y, x⟩ := p
      obtain ⟨h1, h2⟩ := mem_rowMajor.mp hp
      exact hdom y h1 x h2 hne)
    (by simpa [brightestInit] using hpos)
  unfold brightestUV
  rw [brightestScan_eq_foldl, h]

/-- Witness for C1: a 2x2 buffer whose only lit pixel is at row 0, column 1
yields UV `(1/2, 1)`. -/
theorem C1_unique_brightest_pixel_uv_witness :
    brightestUV 2 2 (fun y x => if y = 0 ∧ x = 1 then ((1 : ℚ), 1, 1) else (0, 0, 0))
      = (1 / 2, 1) := by
  have h := C1_unique_brightest_pixel_uv 2 2 0 1
    (fun y x => if y = 0 ∧ x = 1 then ((1 : ℚ), 1, 1) else (0, 0, 0))
    (by norm_num) (by norm_num) (by norm_num [luminance])
    (by
      intro y hy x hx hne
      interval_cases y <;> interval_cases x <;> simp_all <;> norm_num [luminance])
  rw [h]
  norm_num

/-- Counterexample to C1 as stated: a 2-wide, 1-high buffer whose pixel at
row 0, column 0 is black (luminance 0) and whose other pixel has negative
channels (luminance -1).  The black pixel is the unique luminance maximum, yet
the scan keeps its `(0.5, 0.5)` default instead of returning
`(0/2, 1 - 0/1) = (0, 1)`. -/
theorem C1_counterexample :
    (∀ y, y < 1 → ∀ x, x < 2 → (y, x) ≠ ((0 : ℕ), (0 : ℕ)) →
      luminance ((fun _ x => if x = 1 then ((-1 : ℚ), -1, -1) else (0, 0, 0)) y x)
        < luminance ((fun _ x => if x = 1 then ((-1 : ℚ), -1, -1) else (0, 0, 0)) 0 0))
    ∧ brightestUV 2 1 (fun _ x => if x = 1 then ((-1 : ℚ), -1, -1) else (0, 0, 0))
        ≠ ((0 : ℚ) / 2, 1 - (0 : ℚ) / 1) := by
  constructor
  · intro y hy x hx hne
    interval_cases y <;> interval_cases x <;> simp_all <;> norm_num [luminance]
  · norm_num [brightestUV, brightestScan, brightestInit, scanStep, luminance,
      List.range_succ, Prod.ext_iff]

/-- C8 (amended): for every pixel buffer in which all pixels share the same
**strictly positive** luminance value, the scan returns the UV of the first
pixel reached by the row-major scan, i.e. UV `(0, 1)`.  (Positivity is needed
because a uniformly black buffer never beats the initial running maximum 0 and
the scan keeps its `(0.5, 0.5)` default.) -/
theorem C8_uniform_luminance_uv (W H : ℕ) (buf : ℕ → ℕ → Pixel) (l : ℚ)
    (hW : 0 < W) (hH : 0 < H)
    (huni : ∀ y, y < H → ∀ x, x < W → luminance (buf y x) = l)
    (hpos : 0 < l) :
    brightestUV W H buf = (0, 1) := by
  obtain ⟨W', rfl⟩ := Nat.exists_eq_succ_of_ne_zero (Nat.pos_iff_ne_zero.mp hW)
  obtain ⟨H', rfl⟩ := Nat.exists_eq_succ_of_ne_zero (Nat.pos_iff_ne_zero.mp hH)
  obtain ⟨rest, hrm⟩ : ∃ rest, rowMajor (W' + 1) (H' + 1) = (0, 0) :: rest := by
    rw [rowMajor, List.range_succ_eq_map, List.range_succ_eq_map]
    simp only [List.flatMap_cons, List.map_cons, List.cons_append]
    exact ⟨_, rfl⟩
  have h00 : luminance (buf 0 0) = l := huni 0 (Nat.succ_pos H') 0 (Nat.succ_pos W')
  have hstep : scanStep (W' + 1) (H' + 1) buf brightestInit (0, 0)
      = (luminance (buf 0 0), 0, 1) := by
    rw [scanStep_of_lt (by simpa [brightestInit, h00] using hpos)]
    norm_num
  unfold brightestUV
  rw [brightestScan_eq_foldl, hrm, List.foldl_cons, hstep,
    scanFold_const_of_le _ _ _ _ _ (fun p hp => by
      have hpm : p ∈ rowMajor (W' + 1) (H' + 1) := by
        rw [hrm]
        exact List.mem_cons_of_mem _ hp
      obtain ⟨h1, h2⟩ := mem_rowMajor.mp hpm
      rw [huni p.1 h1 p.2 h2]
      simp [h00])]

/-- Witness for C8: a 1x1 buffer of constant white pixels (shared luminance 1)
yields UV `(0, 1)`. -/
theorem C8_uniform_luminance_uv_witness :
    brightestUV 1 1 (fun _ _ => ((1 : ℚ), 1, 1)) = (0, 1) :=
  C8_uniform_luminance_uv 1 1 (fun _ _ => ((1 : ℚ), 1, 1)) 1
    (by norm_num) (by norm_num)
    (by intro y _ x _; norm_num [luminance]) (by norm_num)

/-- Counterexample to C8 as stated: a 1x1 uniformly black buffer (all pixels
share luminance 0) makes the scan keep its `(0.5, 0.5)` default instead of
returning the first-scanned pixel's UV `(0, 1)`. -/
theorem C8_counterexample :
    (∀ y, y < 1 → ∀ x, x < 1 →
      luminance ((fun _ _ => ((0 : ℚ), 0, 0)) y x) = 0)
    ∧ brightestUV 1 1 (fun _ _ => ((0 : ℚ), 0, 0)) ≠ (0, 1) := by
  constructor
  · intro y _ x _
    norm_num [luminance]
  · norm_num [brightestUV, brightestScan, brightestInit, scanStep, luminance,
      List.range_succ, Prod.ext_iff]

/-! ## Lemmas about directions and rotations -/

lemma norm3_raw_dir (theta phi : ℝ) :
    norm3 (Real.cos theta * Real.sin phi, Real.sin theta,
      Real.cos theta * Real.cos phi) = 1 := by
  show Real.sqrt ((Real.cos theta * Real.sin phi) ^ 2 + Real.sin theta ^ 2
    + (Real.cos theta * Real.cos phi) ^ 2) = 1
  have h : (Real.cos theta * Real.sin phi) ^ 2 + Real.sin theta ^ 2
      + (Real.cos theta * Real.cos phi) ^ 2 = 1 := by
    have h1 := Real.sin_sq_add_cos_sq theta
    have h2 := Real.sin_sq_add_cos_sq phi
    nlinarith [h1, h2]
  rw [h, Real.sqrt_one]

lemma equirect_eq_raw (u v : ℝ) :
    equirectUVToDirection u v
      = (Real.cos ((v - 0.5) * Real.pi) * Real.sin ((u - 0.5) * Real.pi * 2),
         Real.sin ((v - 0.5) * Real.pi),
         Real.cos ((v - 0.5) * Real.pi) * Real.cos ((u - 0.5) * Real.pi * 2)) := by
  unfold equirectUVToDirection normalize3
  simp only [norm3_raw_dir]
  norm_num

lemma norm3_equirect (u v : ℝ) : norm3 (equirectUVToDirection u v) = 1 := by
  rw [equirect_eq_raw]
  exact norm3_raw_dir _ _

lemma norm3_normalize3 (v : ℝ × ℝ × ℝ) (h : norm3 v ≠ 0) :
    norm3 (normalize3 v) = 1 := by
  have hS : (0 : ℝ) ≤ v.1 ^ 2 + v.2.1 ^ 2 + v.2.2 ^ 2 := by positivity
  have hn : 0 < norm3 v :=
    lt_of_le_of_ne (Real.sqrt_nonneg _) (Ne.symm h)
  have hsq : norm3 v ^ 2 = v.1 ^ 2 + v.2.1 ^ 2 + v.2.2 ^ 2 := Real.sq_sqrt hS
  unfold normalize3
  simp only [if_neg h]
  show Real.sqrt ((v.1 / norm3 v) ^ 2 + (v.2.1 / norm3 v) ^ 2
    + (v.2.2 / norm3 v) ^ 2) = 1
  have hone : (v.1 / norm3 v) ^ 2 + (v.2.1 / norm3 v) ^ 2
      + (v.2.2 / norm3 v) ^ 2 = 1 := by
    field_simp
    linarith [hsq]
  rw [hone, Real.sqrt_one]

lemma norm3_ne_zero_of_fst_ne (v : ℝ × ℝ × ℝ) (h : v.1 ≠ 0) : norm3 v ≠ 0 := by
  intro hz
  have hle : v.1 ^ 2 + v.2.1 ^ 2 + v.2.2 ^ 2 ≤ 0 := Real.sqrt_eq_zero'.mp hz
  have h1 : 0 < v.1 ^ 2 :=
    lt_of_le_of_ne (sq_nonneg _) (Ne.symm (pow_ne_zero 2 h))
  nlinarith [sq_nonneg v.2.1, sq_nonneg v.2.2]

lemma rotate_rotate (w : ℝ × ℝ × ℝ) (alpha beta : ℝ) :
    rotateAroundVerticalAxis (rotateAroundVerticalAxis w alpha) beta
      = rotateAroundVerticalAxis w (alpha + beta) := by
  unfold rotateAroundVerticalAxis
  rw [Real.cos_add, Real.sin_add]
  refine Prod.ext ?_ (Prod.ext ?_ ?_) <;> simp <;> ring

lemma rotate_sub_int_mul_two_pi (w : ℝ × ℝ × ℝ) (alpha : ℝ) (k : ℤ) :
    rotateAroundVerticalAxis w (alpha - k * (2 * Real.pi))
      = rotateAroundVerticalAxis w alpha := by
  unfold rotateAroundVerticalAxis
  rw [Real.cos_sub_int_mul_two_pi, Real.sin_sub_int_mul_two_pi]

lemma sqrt_two_bounds : (1.4142 : ℝ) < Real.sqrt 2 ∧ Real.sqrt 2 < 1.41422 := by
  have hsq : Real.sqrt 2 ^ 2 = 2 := Real.sq_sqrt (by norm_num)
  have hnn : (0 : ℝ) ≤ Real.sqrt 2 := Real.sqrt_nonneg 2
  constructor <;> nlinarith [hsq, hnn]

/-- C2: for every `(u, v)`, `equirectUVToDirection(u, v)` equals the
normalization of `(cos θ sin φ, sin θ, cos θ cos φ)` with `φ = (u - 0.5)·2π`
and `θ = (v - 0.5)·π` (the spec-side formula `uvToDirectionSpec`); in
particular `(0.5, 0.5)` yields `(0, 0, 1)` exactly and `(0.75, 0.75)` yields
`(√2/2, √2/2, 0)`, within `10⁻⁴` of `(0.7071, 0.7071, 0)`. -/
theorem C2_equirectUVToDirection_formula (u v : ℝ) :
    equirectUVToDirection u v = uvToDirectionSpec u v
    ∧ equirectUVToDirection 0.5 0.5 = (0, 0, 1)
    ∧ |(equirectUVToDirection 0.75 0.75).1 - 0.7071| ≤ 1e-4
    ∧ |(equirectUVToDirection 0.75 0.75).2.1 - 0.7071| ≤ 1e-4
    ∧ (equirectUVToDirection 0.75 0.75).2.2 = 0 := by
  have hval : equirectUVToDirection 0.75 0.75
      = (Real.sqrt 2 / 2, Real.sqrt 2 / 2, 0) := by
    rw [equirect_eq_raw]
    rw [show ((0.75 : ℝ) - 0.5) * Real.pi * 2 = Real.pi / 2 from by ring,
      show ((0.75 : ℝ) - 0.5) * Real.pi = Real.pi / 4 from by ring,
      Real.cos_pi_div_four, Real.sin_pi_div_four, Real.sin_pi_div_two,
      Real.cos_pi_div_two]
    norm_num
  obtain ⟨hs1, hs2⟩ := sqrt_two_bounds
  refine ⟨?_, ?_, ?_, ?_, ?_⟩
  · unfold equirectUVToDirection uvToDirectionSpec
    rw [show (u - 0.5) * Real.pi * 2 = (u - 0.5) * 2 * Real.pi from by ring]
  · rw [equirect_eq_raw]
    norm_num
  · rw [hval]
    rw [abs_le]
    constructor <;> nlinarith
  · rw [hval]
    rw [abs_le]
    constructor <;> nlinarith
  · rw [hval]

/-- C7: the fast-path rotation about the vertical axis composes additively in
the angle (`a` then `b` equals `a + b`), is 360°-periodic (so composing equals
a single rotation by `a + b` reduced mod 360°), and rotation by 360° is the
identity.  Exact over the reals, hence within any floating-point tolerance. -/
theorem C7_rotation_composition (v : ℝ × ℝ × ℝ) (a b : ℝ) (k : ℤ) :
    rotateAroundVerticalAxisDeg (rotateAroundVerticalAxisDeg v a) b
        = rotateAroundVerticalAxisDeg v (a + b)
    ∧ rotateAroundVerticalAxisDeg v (a + b - 360 * k)
        = rotateAroundVerticalAxisDeg v (a + b)
    ∧ rotateAroundVerticalAxisDeg v 360 = v := by
  refine ⟨?_, ?_, ?_⟩
  · unfold rotateAroundVerticalAxisDeg
    rw [rotate_rotate,
      show (a + b) * Real.pi / 180 = a * Real.pi / 180 + b * Real.pi / 180 from by ring]
  · unfold rotateAroundVerticalAxisDeg
    rw [show (a + b - 360 * k) * Real.pi / 180
        = (a + b) * Real.pi / 180 - k * (2 * Real.pi) from by push_cast; ring,
      rotate_sub_int_mul_two_pi]
  · unfold rotateAroundVerticalAxisDeg rotateAroundVerticalAxis
    rw [show (360 : ℝ) * Real.pi / 180 = 2 * Real.pi from by ring,
      Real.cos_two_pi, Real.sin_two_pi]
    simp

/-! ## Lemmas about the calibration table and the viewer state -/

lemma calibration_fst_ne_zero (name : String) (cal : CalibrationEntry)
    (h : hdriSunPositions name = some cal) : ((cal.direction.1 : ℚ) : ℝ) ≠ 0 := by
  unfold hdriSunPositions at h
  split at h <;> (try cases h) <;> norm_num

lemma loadHDRISunDirection_unit (presetName : String) (W H : ℕ)
    (buf : ℕ → ℕ → Pixel) :
    norm3 (loadHDRISunDirection presetName W H buf).1 = 1 := by
  unfold loadHDRISunDirection
  cases hcal : hdriSunPositions presetName with
  | none =>
    show norm3 (analyzeHDRIBrightestPoint W H buf) = 1
    unfold analyzeHDRIBrightestPoint
    exact norm3_equirect _ _
  | some cal =>
    show norm3 (normalize3 (ratDir cal.direction)) = 1
    exact norm3_normalize3 _
      (norm3_ne_zero_of_fst_ne _ (calibration_fst_ne_zero presetName cal hcal))

lemma updateSunLightPosition_scalar_fields (s : ViewerState) :
    (updateSunLightPosition s).sunDirection = s.sunDirection
    ∧ (updateSunLightPosition s).hdriRotation = s.hdriRotation
    ∧ (updateSunLightPosition s).sunIntensity = s.sunIntensity
    ∧ (updateSunLightPosition s).sunEnabled = s.sunEnabled := by
  unfold updateSunLightPosition
  cases s.sunLight with
  | none => exact ⟨rfl, rfl, rfl, rfl⟩
  | some light =>
    by_cases hEn : s.sunEnabled <;> simp [hEn]

lemma reachable_sunDirection_unit (s : ViewerState) (hs : ReachableSunState s) :
    norm3 s.sunDirection = 1 := by
  induction hs with
  | init =>
    show Real.sqrt (0 ^ 2 + 1 ^ 2 + 0 ^ 2) = 1
    norm_num
  | setup s _ ih => exact ih
  | load s presetName W H buf _ _ =>
    unfold loadHDRIApply
    rw [(updateSunLightPosition_scalar_fields _).1]
    exact loadHDRISunDirection_unit presetName W H buf
  | enabledChange s checked _ ih =>
    unfold sunEnabledChange
    rw [(updateSunLightPosition_scalar_fields _).1]
    exact ih
  | intensityInput s value _ ih =>
    unfold sunIntensityInput
    rw [(updateSunLightPosition_scalar_fields _).1]
    exact ih
  | rotationInput s value _ ih =>
    unfold hdriRotationFastUpdate
    rw [(updateSunLightPosition_scalar_fields _).1]
    exact ih
  | update s _ ih =>
    rw [(updateSunLightPosition_scalar_fields _).1]
    exact ih

/-- C9: in every reachable viewer state the stored sun direction has magnitude
exactly 1 (the constructor default is a unit vector, the calibrated direction
is normalized before being stored, and no operation assigns a non-normalized
vector), and every direction returned by `equirectUVToDirection` is unit
length — exact over the reals, hence within any floating-point tolerance. -/
theorem C9_sunDirection_always_unit (s : ViewerState) (hs : ReachableSunState s)
    (u v : ℝ) :
    norm3 s.sunDirection = 1 ∧ norm3 (equirectUVToDirection u v) = 1 :=
  ⟨reachable_sunDirection_unit s hs, norm3_equirect u v⟩

/-- Witness for C9: the initial viewer state is reachable, its sun direction
`(0, 1, 0)` is unit, and the direction for the image-center UV is unit. -/
theorem C9_sunDirection_always_unit_witness :
    ReachableSunState initialViewerState
    ∧ (norm3 initialViewerState.sunDirection = 1
       ∧ norm3 (equirectUVToDirection 0.5 0.5) = 1) :=
  ⟨ReachableSunState.init,
    C9_sunDirection_always_unit initialViewerState ReachableSunState.init 0.5 0.5⟩

/-- C3: whenever the sun light exists and the enabled flag is true,
`updateSunLightPosition` positions the light at
`rotateAroundVerticalAxis(sunDirection, hdriRotation in radians)` scaled by
the constant distance 20, points the target at the world origin and sets the
light's intensity to the current `sunIntensity` setting. -/
theorem C3_updateSunLightPosition_sets_light (s : ViewerState) (light : SunLight)
    (hl : s.sunLight = some light) (hEn : s.sunEnabled = true) :
    (updateSunLightPosition s).sunLight = some
      (SunLight.mk
        (scale3 20
          (rotateAroundVerticalAxis s.sunDirection (s.hdriRotation * Real.pi / 180)))
        (0, 0, 0) s.sunIntensity true) := by
  unfold updateSunLightPosition
  rw [hl]
  simp [hEn]

/-- Witness for C3: from a state with the placeholder light, direction
`(0, 1, 0)`, rotation 0 and intensity 2, the update puts the light at
`(0, 20, 0)` with target `(0, 0, 0)`, intensity 2 and visible. -/
theorem C3_updateSunLightPosition_sets_light_witness :
    (updateSunLightPosition
        (ViewerState.mk (some (SunLight.mk (5, 10, 5) (0, 0, 0) 2 true))
          (0, 1, 0) 0 2 true)).sunLight
      = some (SunLight.mk (0, 20, 0) (0, 0, 0) 2 true) := by
  have h := C3_updateSunLightPosition_sets_light
    (ViewerState.mk (some (SunLight.mk (5, 10, 5) (0, 0, 0) 2 true))
      (0, 1, 0) 0 2 true)
    (SunLight.mk (5, 10, 5) (0, 0, 0) 2 true) rfl rfl
  rw [h]
  norm_num [scale3, rotateAroundVerticalAxis]

/-- C6 (code bug): the `sun-enabled` listener with the box unchecked stores
`sunEnabled = false` and calls `updateSunLightPosition`, but the update
returns early on `!this.sunEnabled`, so the `visible = sunEnabled` assignment
is never reached: the light stays visible even though the flag is false,
contradicting the code's own "Show/hide based on enabled state" comment and
the documented on/off toggle. -/
theorem C6_disable_leaves_light_visible :
    (sunEnabledChange
        (ViewerState.mk (some (SunLight.mk (5, 10, 5) (0, 0, 0) 2 true))
          (0, 1, 0) 0 2 true) false).sunEnabled = false
    ∧ ((sunEnabledChange
        (ViewerState.mk (some (SunLight.mk (5, 10, 5) (0, 0, 0) 2 true))
          (0, 1, 0) 0 2 true) false).sunLight).map SunLight.visible = some true := by
  unfold sunEnabledChange updateSunLightPosition
  simp

lemma updateSunLightPosition_idem (s : ViewerState) :
    updateSunLightPosition (updateSunLightPosition s) = updateSunLightPosition s := by
  cases hl : s.sunLight with
  | none =>
    have h : updateSunLightPosition s = s := by
      unfold updateSunLightPosition
      rw [hl]
    rw [h, h]
  | some light =>
    by_cases hEn : s.sunEnabled
    · have h1 : updateSunLightPosition s = { s with sunLight := some (SunLight.mk
          (scale3 20 (rotateAroundVerticalAxis s.sunDirection
            (s.hdriRotation * Real.pi / 180)))
          (0, 0, 0) s.sunIntensity true) } := by
        unfold updateSunLightPosition
        rw [hl]
        simp [hEn]
      rw [h1]
      unfold updateSunLightPosition
      simp [hEn]
    · have h : updateSunLightPosition s = s := by
        unfold updateSunLightPosition
        rw [hl]
        simp [hEn]
      rw [h, h]

/-- C10: `updateSunLightPosition` never mutates the stored state it reads
(`sunDirection` is cloned before the rotation and scaling, so the stored
direction, rotation, intensity and enabled flag are unchanged), and a second
call on the resulting state reproduces the same light (same position), i.e.
the update is idempotent. -/
theorem C10_updateSunLightPosition_preserves_state (s : ViewerState) :
    (updateSunLightPosition s).sunDirection = s.sunDirection
    ∧ (updateSunLightPosition s).hdriRotation = s.hdriRotation
    ∧ (updateSunLightPosition s).sunIntensity = s.sunIntensity
    ∧ (updateSunLightPosition s).sunEnabled = s.sunEnabled
    ∧ updateSunLightPosition (updateSunLightPosition s) = updateSunLightPosition s := by
  obtain ⟨h1, h2, h3, h4⟩ := updateSunLightPosition_scalar_fields s
  exact ⟨h1, h2, h3, h4, updateSunLightPosition_idem s⟩

/-- The studio preset's stored calibrated direction. -/
def studioDirection : ℚ × ℚ × ℚ :=
  (0.23631718059217147, -0.021718374207907128, 0.9714332207510367)

/-- C5 (amended): for every preset with a calibration entry, loading that
preset stores the entry's direction **renormalized to unit length** (the
script calls `.normalize()` on the stored triple) and never invokes the
sampler/extractor for that load; the sampler runs exactly when no calibration
entry exists for the preset. -/
theorem C5_calibrated_preset_skips_sampler (presetName : String)
    (cal : CalibrationEntry) (W H : ℕ) (buf : ℕ → ℕ → Pixel)
    (h : hdriSunPositions presetName = some cal) :
    (loadHDRISunDirection presetName W H buf).1 = normalize3 (ratDir cal.direction)
    ∧ (loadHDRISunDirection presetName W H buf).2 = false
    ∧ ∀ name : String, hdriSunPositions name = none →
        (loadHDRISunDirection name W H buf).2 = true := by
  refine ⟨?_, ?_, ?_⟩
  · simp only [loadHDRISunDirection, h]
  · simp only [loadHDRISunDirection, h]
  · intro name hn
    simp only [loadHDRISunDirection, hn]

/-- Witness for C5: the calibration table has a "studio" entry, and loading
"studio" does not invoke the sampler. -/
theorem C5_calibrated_preset_skips_sampler_witness :
    hdriSunPositions "studio"
      = some (CalibrationEntry.mk (0.5379793510324484, 0.4930862831858407) studioDirection)
    ∧ (loadHDRISunDirection "studio" 1 1 (fun _ _ => (0, 0, 0))).2 = false := by
  have h : hdriSunPositions "studio"
      = some (CalibrationEntry.mk (0.5379793510324484, 0.4930862831858407) studioDirection) :=
    rfl
  exact ⟨h, (C5_calibrated_preset_skips_sampler "studio" _ 1 1 _ h).2.1⟩

/-- Counterexample to C5 as stated: loading "studio" does not store the
*exact* stored direction — the script normalizes it first, and the stored
decimal triple has squared norm different from 1, so normalization changes
it. -/
theorem C5_counterexample :
    (loadHDRISunDirection "studio" 1 1 (fun _ _ => (0, 0, 0))).1
      ≠ ratDir studioDirection := by
  have hload : (loadHDRISunDirection "studio" 1 1 (fun _ _ => (0, 0, 0))).1
      = normalize3 (ratDir studioDirection) := rfl
  rw [hload]
  intro hEq
  have hfst : (ratDir studioDirection).1 ≠ 0 := by
    unfold ratDir studioDirection
    push_cast
    norm_num
  have hn : norm3 (ratDir studioDirection) ≠ 0 :=
    norm3_ne_zero_of_fst_ne _ hfst
  have hfst1 : (normalize3 (ratDir studioDirection)).1
      = (ratDir studioDirection).1 / norm3 (ratDir studioDirection) := by
    simp only [normalize3, if_neg hn]
  have h1 : (ratDir studioDirection).1 / norm3 (ratDir studioDirection)
      = (ratDir studioDirection).1 := by
    rw [← hfst1]
    exact congrArg Prod.fst hEq
  have hone : norm3 (ratDir studioDirection) = 1 := by
    have h2 : (ratDir studioDirection).1
        = (ratDir studioDirection).1 * norm3 (ratDir studioDirection) :=
      (div_eq_iff hn).mp h1
    have h3 : (ratDir studioDirection).1 * norm3 (ratDir studioDirection)
        = (ratDir studioDirection).1 * 1 := by rw [mul_one, ← h2]
    exact mul_left_cancel₀ hfst h3
  have hsq : ((ratDir studioDirection).1 ^ 2 + (ratDir studioDirection).2.1 ^ 2
      + (ratDir studioDirection).2.2 ^ 2) = 1 := by
    have h4 := congrArg (fun x => x ^ 2) hone
    simpa [norm3, Real.sq_sqrt, Real.sqrt_eq_iff_sq_eq,
      Real.sq_sqrt (show (0 : ℝ) ≤ (ratDir studioDirection).1 ^ 2
          + (ratDir studioDirection).2.1 ^ 2 + (ratDir studioDirection).2.2 ^ 2
        from by positivity)] using h4
  have hq : (studioDirection.1 ^ 2 + studioDirection.2.1 ^ 2
      + studioDirection.2.2 ^ 2 : ℚ) = 1 := by
    have : (((studioDirection.1 ^ 2 + studioDirection.2.1 ^ 2
        + studioDirection.2.2 ^ 2 : ℚ)) : ℝ) = 1 := by
      push_cast
      convert hsq using 2 <;> simp [ratDir]
    exact_mod_cast this
  norm_num [studioDirection] at hq

/-! ## Lemmas about the debounce simulation -/

lemma hdriRotationInputEvent_not_due (s : DebounceState) (t v : ℚ)
    (hnd : ∀ ft, s.timer = some ft → t < ft) :
    hdriRotationInputEvent s t v
      = { hdriRotation := v
          timer := some (t + 300)
          calls := s.calls ++ [HDRISettingsCall.mk t v false] } := by
  unfold hdriRotationInputEvent deliverDueTimer
  cases htimer : s.timer with
  | none => rfl
  | some ft =>
    simp only [if_neg (not_le.mpr (hnd ft htimer))]

lemma runRotationEvents_burst :
    ∀ (rest : List (ℚ × ℚ)) (e : ℚ × ℚ) (s : DebounceState),
    (∀ ft, s.timer = some ft → e.1 < ft) →
    List.Chain' (fun a b : ℚ × ℚ => b.1 - a.1 < 300) (e :: rest) →
    (runRotationEvents s (e :: rest)).hdriRotation
        = ((e :: rest).getLast (by simp)).2
    ∧ (runRotationEvents s (e :: rest)).timer
        = some (((e :: rest).getLast (by simp)).1 + 300)
    ∧ (runRotationEvents s (e :: rest)).calls
        = s.calls ++ (e :: rest).map (fun p => HDRISettingsCall.mk p.1 p.2 false) := by
  intro rest
  induction rest with
  | nil =>
    intro e s hnd _
    rw [show runRotationEvents s [e] = hdriRotationInputEvent s e.1 e.2 from rfl,
      hdriRotationInputEvent_not_due s e.1 e.2 hnd]
    simp
  | cons f rest ih =>
    intro e s hnd hchain
    have hstep : runRotationEvents s (e :: f :: rest)
        = runRotationEvents (hdriRotationInputEvent s e.1 e.2) (f :: rest) := rfl
    rw [hstep, hdriRotationInputEvent_not_due s e.1 e.2 hnd]
    have hgap : f.1 - e.1 < 300 := (List.chain'_cons.mp hchain).1
    have hchain' : List.Chain' (fun a b : ℚ × ℚ => b.1 - a.1 < 300) (f :: rest) :=
      (List.chain'_cons.mp hchain).2
    obtain ⟨ih1, ih2, ih3⟩ := ih f
      { hdriRotation := e.2, timer := some (e.1 + 300),
        calls := s.calls ++ [HDRISettingsCall.mk e.1 e.2 false] }
      (by intro ft hft; cases hft; linarith) hchain'
    refine ⟨?_, ?_, ?_⟩
    · rw [ih1, List.getLast_cons (List.cons_ne_nil f rest)]
    · rw [ih2, List.getLast_cons (List.cons_ne_nil f rest)]
    · rw [ih3]
      simp [List.append_assoc]

lemma filter_fast_calls (l : List (ℚ × ℚ)) :
    (l.map (fun p => HDRISettingsCall.mk p.1 p.2 false)).filter
      (fun c => c.forceRegenerate) = [] := by
  induction l with
  | nil => rfl
  | cons p l ih => simpa using ih

/-- C4: for every burst of N ≥ 1 rotation-input events in which consecutive
events are less than 300 ms apart, starting with no pending timer, exactly one
slow-path regeneration (`updateHDRISettings` with `forceRegenerate = true`)
fires; it fires 300 ms after the last event of the burst and reads the
rotation value stored by that last event.  Each event's listener cancels any
pending debounce timer (`clearTimeout`) before arming a new 300 ms one, which
is what makes the earlier timers of the burst never fire. -/
theorem C4_debounce_single_regeneration (r0 : ℚ) (e : ℚ × ℚ)
    (rest : List (ℚ × ℚ))
    (hchain : List.Chain' (fun a b : ℚ × ℚ => b.1 - a.1 < 300) (e :: rest)) :
    slowPathCalls
        (flushPendingTimer (runRotationEvents (debounceInit r0) (e :: rest))).calls
      = [HDRISettingsCall.mk (((e :: rest).getLast (by simp)).1 + 300)
          ((e :: rest).getLast (by simp)).2 true] := by
  obtain ⟨h1, h2, h3⟩ := runRotationEvents_burst rest e (debounceInit r0)
    (by intro ft hft; simp [debounceInit] at hft) hchain
  unfold flushPendingTimer
  rw [h2]
  show slowPathCalls ((runRotationEvents (debounceInit r0) (e :: rest)).calls
      ++ [HDRISettingsCall.mk (((e :: rest).getLast (by simp)).1 + 300)
            (runRotationEvents (debounceInit r0) (e :: rest)).hdriRotation true]) = _
  rw [h1, h3]
  unfold slowPathCalls
  rw [List.filter_append]
  simp [debounceInit, filter_fast_calls]

/-- Witness for C4: the burst `(t=0, 10), (t=100, 20), (t=250, 30)` (gaps
100 ms and 150 ms) produces exactly one forced regeneration, at time 550 with
rotation 30. -/
theorem C4_debounce_single_regeneration_witness :
    slowPathCalls
        (flushPendingTimer (runRotationEvents (debounceInit 0)
          ((0, 10) :: [(100, 20), (250, 30)]))).calls
      = [HDRISettingsCall.mk 550 30 true] := by
  have h := C4_debounce_single_regeneration 0 (0, 10) [(100, 20), (250, 30)]
    (by norm_num [List.chain'_cons])
  rw [h]
  norm_num [List.getLast]

end HDRISun
